import Mathlib

/-!
Shallow embedding of `hard.py`: a prerequisite-condition parser and evaluator.

The Python program defines a small class hierarchy of condition nodes
(`Conjunction`, `Union`, `SingleCourse`, `UOC`, `Verum`), a character-scanning
grouper `parse_groups`, a recursive parser `parse_condition`, a module-level
mapping `CONDITIONS` built by parsing every entry of a requirement store, and a
query function `is_unlocked`.

Strings are modelled through their character lists (`String` in this toolchain
is a structure holding `data : List Char`).  Python's character classes are
modelled at their ASCII meaning: the regexes in the source use `[a-zA-Z]` (ASCII
by definition) and `\d` / `str.isnumeric` / `str.strip` / `str.lower`, which
agree with the ASCII model on all ASCII text.
-/

/-- ASCII letter, the character class `[a-zA-Z]` of the source regexes. -/
def isAsciiAlpha (c : Char) : Bool :=
  (65 ≤ c.toNat && c.toNat ≤ 90) || (97 ≤ c.toNat && c.toNat ≤ 122)

/-- ASCII digit, the character class `\d` of the source regexes (ASCII model). -/
def isAsciiDigit (c : Char) : Bool :=
  48 ≤ c.toNat && c.toNat ≤ 57

/-- Whitespace removed by Python `str.strip()` (ASCII model):
space, tab, newline, carriage return, vertical tab, form feed. -/
def isPySpace (c : Char) : Bool :=
  c.toNat == 32 || c.toNat == 9 || c.toNat == 10 || c.toNat == 13 ||
    c.toNat == 11 || c.toNat == 12

/-- Python `str.lower()` on one character (ASCII model). -/
def pyLower (c : Char) : Char :=
  if 65 ≤ c.toNat && c.toNat ≤ 90 then Char.ofNat (c.toNat + 32) else c

/-- Strip `isPySpace` characters from the front and the back of a list. -/
def pyStripChars (l : List Char) : List Char :=
  ((l.dropWhile isPySpace).reverse.dropWhile isPySpace).reverse

/-- Python `condition.strip()`. -/
def pyStrip (s : String) : String :=
  String.mk (pyStripChars s.data)

/-- Python `condition.isnumeric()` (ASCII model): non-empty and all digits. -/
def isNumericStr (s : String) : Bool :=
  !s.data.isEmpty && s.data.all isAsciiDigit

/-- Four letters followed by four digits. -/
def shape8 (a1 a2 a3 a4 d1 d2 d3 d4 : Char) : Bool :=
  isAsciiAlpha a1 && isAsciiAlpha a2 && isAsciiAlpha a3 && isAsciiAlpha a4 &&
    isAsciiDigit d1 && isAsciiDigit d2 && isAsciiDigit d3 && isAsciiDigit d4

/-- Python `re.match(r'[a-zA-Z]{4}\d{4}$', condition)`: the whole string is
exactly four letters followed by four digits.  (`$` can also match before a
final newline, but `parse_condition` only applies this regex to stripped text,
which never ends in a newline.) -/
def matchCourseCode (s : String) : Bool :=
  match s.data with
  | [a1, a2, a3, a4, d1, d2, d3, d4] => shape8 a1 a2 a3 a4 d1 d2 d3 d4
  | _ => false

/-- The condition-node hierarchy of `hard.py`: `Conjunction`, `Union`,
`SingleCourse`, `UOC` and `Verum`, all subclasses of `Condition`. -/
inductive Condition where
  | Conjunction (subconditions : List Condition)
  | Union (subconditions : List Condition)
  | SingleCourse (name : String)
  | UOC (num_credits : Int) (pfx : Option String) (courses : List String)
  | Verum

/-- The guard of the loop body of `UOC.satisfied`:
`(self.courses and course in self.courses) or self.prefix is None
 or course.startswith(self.prefix)`. -/
def uocCounts (pfx : Option String) (courses : List String) (course : String) : Bool :=
  (!courses.isEmpty && courses.contains course) ||
    (match pfx with
     | none => true
     | some p => course.startsWith p)

/-- The `credits_done` accumulation loop of `UOC.satisfied`. -/
def uocCredits (pfx : Option String) (courses : List String)
    (courses_list : List String) : Int :=
  courses_list.foldl
    (fun acc course => if uocCounts pfx courses course then acc + 6 else acc) 0

mutual

/-- The `satisfied` method, dispatched over the node variant. -/
def satisfied : Condition → List String → Bool
  | .Conjunction subs, courses_list => allSatisfied subs courses_list
  | .Union subs, courses_list => anySatisfied subs courses_list
  | .SingleCourse name, courses_list => courses_list.contains name
  | .UOC num_credits pfx courses, courses_list =>
      decide (num_credits ≤ uocCredits pfx courses courses_list)
  | .Verum, _ => true

/-- Python `all(sub.satisfied(courses_list) for sub in self.subconditions)`. -/
def allSatisfied : List Condition → List String → Bool
  | [], _ => true
  | c :: rest, courses_list => satisfied c courses_list && allSatisfied rest courses_list

/-- Python `any(sub.satisfied(courses_list) for sub in self.subconditions)`. -/
def anySatisfied : List Condition → List String → Bool
  | [], _ => false
  | c :: rest, courses_list => satisfied c courses_list || anySatisfied rest courses_list

end

/-- The two classes `parse_groups` can report as the connective of a group. -/
inductive CType where
  | conj
  | union
deriving DecidableEq

/-- Substring occurrence, Python `pat in s`. -/
def containsSub (pat : List Char) : List Char → Bool
  | [] => pat.isEmpty
  | c :: rest => List.isPrefixOf pat (c :: rest) || containsSub pat rest

/-- The nested function `endgroup` of `parse_groups`, acting on the `type`
cell: `'or' in joined.lower()` sets `Union`, else `'and' in joined.lower()`
sets `Conjunction`, else `type` is left unchanged. -/
def endgroupType (group : List Char) (t : Option CType) : Option CType :=
  let joined := group.map pyLower
  if containsSub ['o', 'r'] joined then some CType.union
  else if containsSub ['a', 'n', 'd'] joined then some CType.conj
  else t

/-- Python `re.search(r'.*([a-zA-Z]{4}\d{4})$', joined)`: succeeds when the
last eight characters are four letters then four digits (group 1 is those
eight characters), or — because `$` also matches just before a newline that
ends the string — when the string ends in a newline preceded by such a block. -/
def tailCode (g : List Char) : Option (List Char) :=
  match g.reverse with
  | d4 :: d3 :: d2 :: d1 :: a4 :: a3 :: a2 :: a1 :: rest =>
    if shape8 a1 a2 a3 a4 d1 d2 d3 d4 then some [a1, a2, a3, a4, d1, d2, d3, d4]
    else if d4 == '\n' then
      match d3 :: d2 :: d1 :: a4 :: a3 :: a2 :: a1 :: rest with
      | e4 :: e3 :: e2 :: e1 :: b4 :: b3 :: b2 :: b1 :: _ =>
        if shape8 b1 b2 b3 b4 e1 e2 e3 e4 then
          some [b1, b2, b3, b4, e1, e2, e3, e4]
        else none
      | _ => none
    else none
  | _ => none

/-- The loop state of `parse_groups`: `groups`, the character buffer `group`,
the bracket-depth counter (a Python `int`, so it may go negative), and the
`type` cell written by `endgroup`. -/
structure PGState where
  groups : List String
  group : List Char
  brackets : Int
  ctype : Option CType

/-- One iteration of the `for char in condition` loop of `parse_groups`. -/
def pgStep (st : PGState) (c : Char) : PGState :=
  if st.brackets == 0 && !st.group.isEmpty && c == '(' then
    { groups := st.groups ++ [String.mk st.group]
      group := []
      brackets := 1
      ctype := endgroupType st.group st.ctype }
  else if st.brackets == 1 && c == ')' then
    { groups := st.groups ++ [String.mk st.group]
      group := []
      brackets := 0
      ctype := st.ctype }
  else
    let g := st.group ++ [c]
    if c == '(' then
      { st with group := g, brackets := st.brackets + 1 }
    else if c == ')' then
      { st with group := g, brackets := st.brackets - 1 }
    else if st.brackets == 0 then
      match tailCode g with
      | some code =>
        { groups := st.groups ++ [String.mk code]
          group := []
          brackets := st.brackets
          ctype := endgroupType g st.ctype }
      | none => { st with group := g }
    else { st with group := g }

/-- Python `parse_groups`: run the character loop, then flush any remaining
buffer as a final group. -/
def parse_groups (condition : String) : List String × Option CType :=
  let st := condition.data.foldl pgStep ⟨[], [], 0, none⟩
  if st.group.isEmpty then (st.groups, st.ctype)
  else (st.groups ++ [String.mk st.group], endgroupType st.group st.ctype)

/-- Applying the class returned by `parse_groups` to the child list. -/
def mkNode (t : CType) (subs : List Condition) : Condition :=
  match t with
  | CType.conj => Condition.Conjunction subs
  | CType.union => Condition.Union subs

/-- Python `parse_condition`, with an explicit recursion-depth fuel.  The
Python function recurses on the groups returned by `parse_groups`, which are
built from disjoint character ranges of its (stripped) argument, so whenever
more than one group exists each group is strictly shorter than the argument;
fuel `length + 1` therefore never runs out on the paths the source reaches. -/
def parseConditionAux : Nat → String → Option Condition
  | 0, _ => none
  | fuel + 1, condition =>
    let c := pyStrip condition
    if c = "" then some Condition.Verum
    else if isNumericStr c then some (Condition.SingleCourse ("COMP" ++ c))
    else if matchCourseCode c then some (Condition.SingleCourse c)
    else
      let gs := parse_groups c
      if gs.1.length == 1 then none
      else
        match gs.2 with
        | some t => some (mkNode t (gs.1.filterMap (parseConditionAux fuel)))
        | none => none

/-- Python `parse_condition`. -/
def parse_condition (condition : String) : Option Condition :=
  parseConditionAux (condition.length + 1) condition

/-- The dict comprehension building `CONDITIONS` from the raw requirement
store: every entry is parsed, keeping the key. -/
def buildConditions (raw : List (String × String)) : List (String × Option Condition) :=
  raw.map (fun p => (p.1, parse_condition p.2))

/-- The two run-time errors `is_unlocked` can raise: a missing key in
`CONDITIONS`, and `.satisfied` attribute lookup on a stored `None`. -/
inductive PyError where
  | keyError
  | attributeError
deriving DecidableEq

/-- Python `is_unlocked`: `CONDITIONS[target_course].satisfied(courses_list)`,
with the dictionary passed explicitly and exceptional outcomes reified. -/
def is_unlocked (conds : List (String × Option Condition))
    (courses_list : List String) (target_course : String) : Except PyError Bool :=
  match List.lookup target_course conds with
  | none => Except.error PyError.keyError
  | some none => Except.error PyError.attributeError
  | some (some cond) => Except.ok (satisfied cond courses_list)

/-! Helper lemmas about character classes and stripping. -/

theorem alpha_not_space (c : Char) (h : isAsciiAlpha c = true) : isPySpace c = false := by
  simp only [isAsciiAlpha, Bool.or_eq_true, Bool.and_eq_true, decide_eq_true_eq] at h
  simp only [isPySpace, Bool.or_eq_false_iff, beq_eq_false_iff_ne, ne_eq]
  omega

theorem digit_not_space (c : Char) (h : isAsciiDigit c = true) : isPySpace c = false := by
  simp only [isAsciiDigit, Bool.and_eq_true, decide_eq_true_eq] at h
  simp only [isPySpace, Bool.or_eq_false_iff, beq_eq_false_iff_ne, ne_eq]
  omega

theorem alpha_not_digit (c : Char) (h : isAsciiAlpha c = true) : isAsciiDigit c = false := by
  simp only [isAsciiAlpha, Bool.or_eq_true, Bool.and_eq_true, decide_eq_true_eq] at h
  simp only [isAsciiDigit, Bool.and_eq_false_iff, decide_eq_false_iff_not, not_le]
  omega

theorem dropWhile_of_all_not (p : Char → Bool) (l : List Char)
    (h : l.all (fun c => !p c) = true) : l.dropWhile p = l := by
  cases l with
  | nil => rfl
  | cons a l =>
    simp only [List.all_cons, Bool.and_eq_true, Bool.not_eq_true'] at h
    simp [List.dropWhile_cons, h.1]

theorem dropWhile_of_all (p : Char → Bool) (l : List Char)
    (h : l.all p = true) : l.dropWhile p = [] := by
  induction l with
  | nil => rfl
  | cons a l ih =>
    simp only [List.all_cons, Bool.and_eq_true] at h
    simp [List.dropWhile_cons, h.1, ih h.2]

theorem pyStripChars_of_all_not (l : List Char)
    (h : l.all (fun c => !isPySpace c) = true) : pyStripChars l = l := by
  unfold pyStripChars
  rw [dropWhile_of_all_not _ _ h, dropWhile_of_all_not, List.reverse_reverse]
  simp only [List.all_eq_true, List.mem_reverse]
  simp only [List.all_eq_true] at h
  exact h

theorem pyStripChars_of_all (l : List Char)
    (h : l.all isPySpace = true) : pyStripChars l = [] := by
  unfold pyStripChars
  rw [dropWhile_of_all _ _ h]
  rfl

theorem contains_iff_mem (l : List String) (a : String) : l.contains a = true ↔ a ∈ l := by
  show l.elem a = true ↔ a ∈ l
  exact List.elem_iff

/-! Helper lemmas about the `UOC` credit count. -/

theorem uocCredits_foldl (pfx : Option String) (cs : List String) (l : List String) :
    ∀ acc : Int,
      l.foldl (fun acc course => if uocCounts pfx cs course then acc + 6 else acc) acc =
        acc + 6 * (l.countP (uocCounts pfx cs) : Int) := by
  induction l with
  | nil => intro acc; simp
  | cons a l ih =>
    intro acc
    by_cases huoc : uocCounts pfx cs a
    · simp only [List.foldl_cons, List.countP_cons, huoc, if_true, if_pos, ih]
      push_cast
      ring
    · simp [List.foldl_cons, List.countP_cons, huoc, ih]

theorem uocCredits_eq (pfx : Option String) (cs l : List String) :
    uocCredits pfx cs l = 6 * (l.countP (uocCounts pfx cs) : Int) := by
  unfold uocCredits
  rw [uocCredits_foldl]
  ring

/-- The scenario-4 condition tree. -/
def scenario4Tree : Condition :=
  Condition.Conjunction
    [Condition.SingleCourse "COMP1511",
     Condition.Union
       [Condition.SingleCourse "COMP1521", Condition.SingleCourse "COMP2521"]]

set_option maxRecDepth 4000 in
/-- Claim C1: parsing "COMP1511 and (COMP1521 or COMP2521)" yields the
conjunction of an atomic COMP1511 node with the disjunction of atomic
COMP1521 and COMP2521 nodes; that tree is satisfied by the completed list
["COMP1511", "COMP2521"] and not by ["COMP1511"]. -/
theorem parse_scenario4 :
    parse_condition "COMP1511 and (COMP1521 or COMP2521)" = some scenario4Tree ∧
      satisfied scenario4Tree ["COMP1511", "COMP2521"] = true ∧
      satisfied scenario4Tree ["COMP1511"] = false :=
  ⟨rfl, rfl, rfl⟩

/-- Claim C8: over any completed-course list, a `Conjunction` with no
subconditions evaluates to true and a `Union` with no subconditions evaluates
to false. -/
theorem empty_conjunction_union : ∀ L : List String,
    satisfied (Condition.Conjunction []) L = true ∧
      satisfied (Condition.Union []) L = false :=
  fun _ => ⟨rfl, rfl⟩

/-- The credit-counting rule as the specification words it: a completed course
earns 6 credits exactly when (the explicit eligible-course list is non-empty
and the course is in it) or (no prefix constraint was given) or (the course
code starts with the prefix).  Stated independently of `uocCounts` so that the
evaluation loop can be compared against it. -/
def specCountsSix (pfx : Option String) (courses : List String) (course : String) : Bool :=
  (decide (courses ≠ []) && decide (course ∈ courses)) || decide (pfx = none) ||
    (match pfx with
     | some p => course.startsWith p
     | none => false)

theorem uocCounts_eq_spec (pfx : Option String) (courses : List String) :
    uocCounts pfx courses = specCountsSix pfx courses := by
  funext course
  cases pfx <;> cases courses <;>
    simp [uocCounts, specCountsSix, List.contains, List.elem_eq_mem, Bool.or_assoc]

/-- Claim C3: a `UOC` node is satisfied over a completed list exactly when 6
credits for every counted course reach the required total, a course being
counted exactly when the explicit list is non-empty and contains it, or no
prefix was given, or its code starts with the prefix. -/
theorem uoc_satisfied_iff :
    ∀ (num_credits : Int) (pfx : Option String) (courses L : List String),
      satisfied (Condition.UOC num_credits pfx courses) L = true ↔
        num_credits ≤ 6 * (L.countP (specCountsSix pfx courses) : Int) := by
  intro num_credits pfx courses L
  simp only [satisfied, decide_eq_true_eq, uocCredits_eq, uocCounts_eq_spec]

/-- Claim C7: a requirement string that is empty or all whitespace parses to
`Verum`, and `Verum` is satisfied over every completed-course list. -/
theorem whitespace_parses_to_verum :
    ∀ (s : String) (L : List String), s.data.all isPySpace = true →
      parse_condition s = some Condition.Verum ∧ satisfied Condition.Verum L = true := by
  intro s L h
  obtain ⟨l⟩ := s
  have hstrip : pyStrip ⟨l⟩ = "" := by
    show String.mk (pyStripChars l) = ""
    rw [pyStripChars_of_all l h]
  refine ⟨?_, rfl⟩
  simp [parse_condition, parseConditionAux, hstrip]

/-- Claim C2: a string of exactly four letters and four digits parses to the
atomic `SingleCourse` node carrying that exact string, and evaluating that
node over any completed-course list is plain membership. -/
theorem atomic_roundtrip :
    ∀ (s : String) (L : List String), matchCourseCode s = true →
      parse_condition s = some (Condition.SingleCourse s) ∧
        (satisfied (Condition.SingleCourse s) L = true ↔ s ∈ L) := by
  intro s L h
  obtain ⟨l⟩ := s
  rcases l with _ | ⟨a1, _ | ⟨a2, _ | ⟨a3, _ | ⟨a4, _ | ⟨d1, _ | ⟨d2, _ | ⟨d3, _ |
      ⟨d4, _ | ⟨x, rest⟩⟩⟩⟩⟩⟩⟩⟩⟩ <;>
    simp only [matchCourseCode, shape8, Bool.and_eq_true, Bool.false_eq_true] at h
  obtain ⟨⟨⟨⟨⟨⟨⟨h1, h2⟩, h3⟩, h4⟩, h5⟩, h6⟩, h7⟩, h8⟩ := h
  have hall : ([a1, a2, a3, a4, d1, d2, d3, d4] : List Char).all
      (fun c => !isPySpace c) = true := by
    simp [alpha_not_space _ h1, alpha_not_space _ h2, alpha_not_space _ h3,
      alpha_not_space _ h4, digit_not_space _ h5, digit_not_space _ h6,
      digit_not_space _ h7, digit_not_space _ h8]
  have hstrip : pyStrip (String.mk [a1, a2, a3, a4, d1, d2, d3, d4]) =
      String.mk [a1, a2, a3, a4, d1, d2, d3, d4] := by
    show String.mk (pyStripChars _) = _
    rw [pyStripChars_of_all_not _ hall]
  constructor
  · have hne : String.mk [a1, a2, a3, a4, d1, d2, d3, d4] ≠ "" := by
      intro heq
      exact List.cons_ne_nil _ _ (congrArg String.data heq)
    have hnum : isNumericStr (String.mk [a1, a2, a3, a4, d1, d2, d3, d4]) = false := by
      simp [isNumericStr, alpha_not_digit _ h1]
    have hmcc : matchCourseCode (String.mk [a1, a2, a3, a4, d1, d2, d3, d4]) = true := by
      simp [matchCourseCode, shape8, h1, h2, h3, h4, h5, h6, h7, h8]
    simp [parse_condition, parseConditionAux, hstrip, hne, hnum, hmcc]
  · simp only [satisfied]
    exact contains_iff_mem L _

/-- Witness for C2 at the concrete course code COMP1511. -/
theorem atomic_roundtrip_witness :
    parse_condition "COMP1511" = some (Condition.SingleCourse "COMP1511") ∧
      (satisfied (Condition.SingleCourse "COMP1511") ["COMP1511"] = true ↔
        "COMP1511" ∈ ["COMP1511"]) :=
  atomic_roundtrip "COMP1511" ["COMP1511"] (by decide)

/-- Counterexample to claim C9 as stated: the purely numeric token "12" is
normalized by prefixing COMP, but the stored code "COMP12" does not match the
4-letter+4-digit pattern. -/
theorem numeric_normalization_cex :
    parse_condition "12" = some (Condition.SingleCourse "COMP12") ∧
      matchCourseCode "COMP12" = false :=
  ⟨rfl, rfl⟩

/-- Claim C9 (amended): a purely numeric token is normalized by prefixing the
fixed default subject code COMP, and the resulting stored course code matches
the 4-letter+4-digit pattern when (and only in general when) the token has
exactly four digits. -/
theorem numeric_normalization :
    ∀ s : String, s.data ≠ [] → s.data.all isAsciiDigit = true →
      parse_condition s = some (Condition.SingleCourse ("COMP" ++ s)) ∧
        (s.data.length = 4 → matchCourseCode ("COMP" ++ s) = true) := by
  intro s hne hall
  obtain ⟨l⟩ := s
  have hnotsp : l.all (fun c => !isPySpace c) = true := by
    simp only [List.all_eq_true] at hall ⊢
    intro c hc
    simp [digit_not_space c (hall c hc)]
  have hstrip : pyStrip (String.mk l) = String.mk l := by
    show String.mk (pyStripChars l) = _
    rw [pyStripChars_of_all_not _ hnotsp]
  have hmkne : String.mk l ≠ "" := by
    intro heq
    exact hne (congrArg String.data heq)
  have hnum : isNumericStr (String.mk l) = true := by
    simp [isNumericStr, hall, List.isEmpty_eq_false, hne]
  constructor
  · simp [parse_condition, parseConditionAux, hstrip, hmkne, hnum]
  · intro hlen
    rcases l with _ | ⟨c1, _ | ⟨c2, _ | ⟨c3, _ | ⟨c4, _ | ⟨c5, t⟩⟩⟩⟩⟩ <;>
      simp only [List.length_cons, List.length_nil] at hlen <;> try omega
    simp only [List.all_eq_true] at hall
    have hd1 := hall c1 (by simp)
    have hd2 := hall c2 (by simp)
    have hd3 := hall c3 (by simp)
    have hd4 := hall c4 (by simp)
    have hdata : ("COMP" ++ String.mk [c1, c2, c3, c4]).data =
        ['C', 'O', 'M', 'P', c1, c2, c3, c4] := rfl
    simp [matchCourseCode, hdata, shape8, isAsciiAlpha, hd1, hd2, hd3, hd4]

/-- Witness for C9 (amended) at the 4-digit numeric token "1511". -/
theorem numeric_normalization_witness :
    parse_condition "1511" = some (Condition.SingleCourse "COMP1511") ∧
      matchCourseCode "COMP1511" = true := by
  have h := numeric_normalization "1511" (by decide) (by decide)
  exact ⟨h.1, h.2 (by decide)⟩

/-- Counterexample to claim C4 as stated: with plain membership containment
between completed-course lists, credit counting over a list with a duplicate
can drop below its former value.  Every course of the longer list is a member
of the shorter one, yet a 12-credit `UOC` node is satisfied only on the longer
list. -/
theorem satisfied_monotone_cex :
    List.all ["COMP1511", "COMP1511"] (List.contains ["COMP1511"]) = true ∧
      satisfied (Condition.UOC 12 none []) ["COMP1511", "COMP1511"] = true ∧
      satisfied (Condition.UOC 12 none []) ["COMP1511"] = false :=
  ⟨rfl, rfl, rfl⟩

mutual

theorem satisfied_mono_aux :
    ∀ (c : Condition) (L1 L2 : List String), List.Sublist L1 L2 →
      satisfied c L1 = true → satisfied c L2 = true
  | Condition.Conjunction subs, L1, L2, hsub, hs =>
      allSatisfied_mono_aux subs L1 L2 hsub hs
  | Condition.Union subs, L1, L2, hsub, hs =>
      anySatisfied_mono_aux subs L1 L2 hsub hs
  | Condition.SingleCourse name, L1, L2, hsub, hs => by
      have hmem := (contains_iff_mem L1 name).1 hs
      exact (contains_iff_mem L2 name).2 (hsub.subset hmem)
  | Condition.UOC n pfx cs, L1, L2, hsub, hs => by
      have h1 : n ≤ uocCredits pfx cs L1 := of_decide_eq_true hs
      have hcount : L1.countP (uocCounts pfx cs) ≤ L2.countP (uocCounts pfx cs) :=
        hsub.countP_le _
      have h2 : n ≤ uocCredits pfx cs L2 := by
        rw [uocCredits_eq] at h1 ⊢
        omega
      exact decide_eq_true h2
  | Condition.Verum, _, _, _, _ => rfl

theorem allSatisfied_mono_aux :
    ∀ (subs : List Condition) (L1 L2 : List String), List.Sublist L1 L2 →
      allSatisfied subs L1 = true → allSatisfied subs L2 = true
  | [], _, _, _, _ => rfl
  | c :: rest, L1, L2, hsub, hs => by
      simp only [allSatisfied, Bool.and_eq_true] at hs ⊢
      exact ⟨satisfied_mono_aux c L1 L2 hsub hs.1,
        allSatisfied_mono_aux rest L1 L2 hsub hs.2⟩

theorem anySatisfied_mono_aux :
    ∀ (subs : List Condition) (L1 L2 : List String), List.Sublist L1 L2 →
      anySatisfied subs L1 = true → anySatisfied subs L2 = true
  | [], _, _, _, hs => absurd hs (by simp [anySatisfied])
  | c :: rest, L1, L2, hsub, hs => by
      simp only [anySatisfied, Bool.or_eq_true] at hs ⊢
      exact hs.imp (satisfied_mono_aux c L1 L2 hsub)
        (anySatisfied_mono_aux rest L1 L2 hsub)

end

/-- Claim C4 (amended): evaluation of every condition node is monotone when
the completed list grows as a list — whenever L1 is a sublist of L2 (L2 is L1
with extra completed entries inserted, duplicates kept), a node satisfied on
L1 stays satisfied on L2. -/
theorem satisfied_monotone :
    ∀ (c : Condition) (L1 L2 : List String), List.Sublist L1 L2 →
      satisfied c L1 = true → satisfied c L2 = true :=
  fun c L1 L2 hsub hs => satisfied_mono_aux c L1 L2 hsub hs

/-- Witness for C4 (amended) at a concrete node and list extension. -/
theorem satisfied_monotone_witness :
    satisfied (Condition.UOC 12 none [])
      (["COMP1511", "COMP1511"] ++ ["COMP9999"]) = true :=
  satisfied_monotone (Condition.UOC 12 none []) ["COMP1511", "COMP1511"] _
    (List.sublist_append_left _ _) rfl

set_option maxRecDepth 4000 in
/-- Counterexample to claim C5 as stated: over the common prefix the grouper
has already classified the group as `Union` (the flush containing "or" was the
first and only classification so far), yet appending " and COMP3333" to the
same grouping call flips the final classification to `Conjunction` — so the
first classification found does not win. -/
theorem connective_first_wins_cex :
    (parse_groups "COMP1111 or COMP2222").2 = some CType.union ∧
      (parse_groups "COMP1111 or COMP2222 and COMP3333").2 = some CType.conj :=
  ⟨rfl, rfl⟩

/-- Claim C5 (amended): connective classification is global per grouping call
and, within one flushed buffer, "or" is checked before "and" (so an "or" flush
always classifies as `Union`); but across flushes the LAST flush containing a
keyword wins: a keyword flush overwrites any earlier classification, while a
keyword-free flush leaves the classification unchanged. -/
theorem connective_last_wins :
    ∀ (g : List Char) (t : Option CType),
      (endgroupType g none ≠ none → endgroupType g t = endgroupType g none) ∧
        (endgroupType g none = none → endgroupType g t = t) ∧
        (containsSub ['o', 'r'] (g.map pyLower) = true →
          endgroupType g t = some CType.union) := by
  intro g t
  by_cases hor : containsSub ['o', 'r'] (g.map pyLower) = true
  · simp [endgroupType, hor]
  · by_cases hand : containsSub ['a', 'n', 'd'] (g.map pyLower) = true
    · simp [endgroupType, hor, hand]
    · simp [endgroupType, hor, hand]

/-- Witness for C5 (amended) at concrete flushed buffers. -/
theorem connective_last_wins_witness :
    endgroupType (" and COMP3333").data (some CType.union) =
        endgroupType (" and COMP3333").data none ∧
      endgroupType ("COMP1111").data (some CType.union) = some CType.union ∧
      endgroupType (" or COMP2222").data (some CType.conj) = some CType.union :=
  ⟨(connective_last_wins (" and COMP3333").data (some CType.union)).1 (by decide),
    (connective_last_wins ("COMP1111").data (some CType.union)).2.1 (by decide),
    (connective_last_wins (" or COMP2222").data (some CType.conj)).2.2 (by decide)⟩

/-- Claim C6: a requirement whose stripped text is non-empty, not purely
numeric and not course-code shaped, and on which the grouper produces exactly
one segment, parses to UNPARSEABLE — the `None` value, not an exception and
not an atomic or constant node. -/
theorem single_segment_unparseable :
    ∀ s : String, pyStrip s ≠ "" → isNumericStr (pyStrip s) = false →
      matchCourseCode (pyStrip s) = false →
      (parse_groups (pyStrip s)).1.length = 1 → parse_condition s = none := by
  intro s h1 h2 h3 h4
  simp [parse_condition, parseConditionAux, h1, h2, h3, h4]

set_option maxRecDepth 4000 in
/-- Witness for C6 at the quantitative phrase of scenario 6. -/
theorem single_segment_unparseable_witness :
    parse_condition "12 credits in COMP" = none :=
  single_segment_unparseable "12 credits in COMP" (by decide) (by decide)
    (by decide) (by decide)

theorem keys_buildConditions : ∀ raw : List (String × String),
    (buildConditions raw).map Prod.fst = raw.map Prod.fst := by
  intro raw
  induction raw with
  | nil => rfl
  | cons p rest ih =>
    simp only [buildConditions, List.map_cons] at ih ⊢
    rw [ih]

theorem lookup_buildConditions :
    ∀ (raw : List (String × String)) (target : String),
      List.lookup target (buildConditions raw) =
        Option.map parse_condition (List.lookup target raw) := by
  intro raw target
  induction raw with
  | nil => rfl
  | cons p rest ih =>
    obtain ⟨k, v⟩ := p
    simp only [buildConditions, List.map_cons, List.lookup_cons] at ih ⊢
    by_cases hk : (target == k) = true
    · simp [hk]
    · simp only [Bool.not_eq_true] at hk
      simp [hk, ih]

/-- Claim C10: the loaded mapping keeps exactly the keys of the requirement
store, holding `none` precisely for the texts `parse_condition` rejects; on
such a course `is_unlocked` raises (attribute lookup on `None`) for every
completed list, while on a successfully parsed course it returns the boolean
evaluation of the stored tree. -/
theorem conditions_mapping_query :
    ∀ (raw : List (String × String)) (target text : String) (courses : List String),
      (buildConditions raw).map Prod.fst = raw.map Prod.fst ∧
        List.lookup target (buildConditions raw) =
          Option.map parse_condition (List.lookup target raw) ∧
        (List.lookup target raw = some text → parse_condition text = none →
          is_unlocked (buildConditions raw) courses target =
            Except.error PyError.attributeError) ∧
        ∀ tree : Condition, List.lookup target raw = some text →
          parse_condition text = some tree →
          is_unlocked (buildConditions raw) courses target =
            Except.ok (satisfied tree courses) := by
  intro raw target text courses
  refine ⟨keys_buildConditions raw, lookup_buildConditions raw target, ?_, ?_⟩
  · intro hl hp
    simp [is_unlocked, lookup_buildConditions, hl, hp]
  · intro tree hl hp
    simp [is_unlocked, lookup_buildConditions, hl, hp]

set_option maxRecDepth 4000 in
/-- Witness for C10: a two-entry store with one unparseable and one parseable
text, queried at both keys. -/
theorem conditions_mapping_query_witness :
    is_unlocked
        (buildConditions [("COMP9801", "12 credits in COMP"), ("COMP9802", "COMP1511")])
        [] "COMP9801" = Except.error PyError.attributeError ∧
      is_unlocked
        (buildConditions [("COMP9801", "12 credits in COMP"), ("COMP9802", "COMP1511")])
        ["COMP1511"] "COMP9802" =
          Except.ok (satisfied (Condition.SingleCourse "COMP1511") ["COMP1511"]) :=
  ⟨(conditions_mapping_query _ "COMP9801" "12 credits in COMP" []).2.2.1 rfl rfl,
    (conditions_mapping_query _ "COMP9802" "COMP1511" ["COMP1511"]).2.2.2
      (Condition.SingleCourse "COMP1511") rfl rfl⟩

/-- Witness for C7 at a whitespace-only string. -/
theorem whitespace_parses_to_verum_witness :
    parse_condition "  " = some Condition.Verum ∧
      satisfied Condition.Verum ["COMP1511"] = true :=
  whitespace_parses_to_verum "  " ["COMP1511"] (by decide)
